import Mathlib

/-
  Verification development for the popcorn movie-rating frontend.

  The component of interest is the movie prefetch/queue manager realized in
  src/app/src/components/MovieExplorer.tsx (primary variant), with the
  single-fetch variant in src/unnamed/part_006 and the retrying page variant
  in src/unnamed/part_011 (MovieRatingPage).

  The embedding models the component's React state (useState values and the
  isReplenishing/isInitialMount refs) as an explicit record, and each event
  handler / async continuation as a pure state transformer.  Asynchrony is
  modelled by splitting every network call into an issue step (which records
  the outstanding request) and a resolve step (which consumes it together
  with an arbitrary server response); the scheduler is a labelled transition
  relation.  Server responses are arbitrary movie lists subject only to the
  interface contract of section 6 of the design notes: a request for `results = n`
  returns at most n records.
-/

namespace Popcorn

/-- Genre id may be a number or a string (MovieExplorer.tsx line 33). -/
inductive GenreId where
  | num (n : Int)
  | str (s : String)
deriving DecidableEq, Repr

/-- A genre entry is either an object with id and name, or a bare string
(MovieExplorer.tsx line 33: `Array<\x7b id: number | string; name: string \x7d | string>`). -/
inductive Genre where
  | obj (id : GenreId) (name : String)
  | plain (s : String)
deriving DecidableEq, Repr

/-- Movie record (MovieExplorer.tsx lines 23-34).  Numeric JSON payload fields
are carried as integers; they are never computed with, only stored and
compared. -/
structure Movie where
  id : Int
  title : String
  original_title : String
  overview : String
  poster_path : Option String
  release_date : String
  vote_average : Int
  runtime : Option Int
  genres : List Genre
deriving DecidableEq, Repr

/-- Genre normalization done on every fetched movie
(MovieExplorer.tsx lines 95-102): a string genre becomes an object using the
string as both id and name; object genres pass through. -/
def normalizeGenre : Genre → Genre
  | .plain s => .obj (.str s) s
  | g => g

/-- Normalization of a fetched movie (MovieExplorer.tsx lines 92-106): the
genres array is normalized, all other fields pass through. -/
def normalizeMovie (m : Movie) : Movie :=
  { m with genres := m.genres.map normalizeGenre }

/-- The three rating inputs of `handleRating` (MovieExplorer.tsx line 250). -/
inductive RatingKind where
  | yes
  | no
  | maybe
deriving DecidableEq, Repr

/-- Rating conversion (MovieExplorer.tsx line 260):
`rating === 'yes' ? 5 : rating === 'maybe' ? 3 : 1`. -/
def ratingToNumeric : RatingKind → Int
  | .yes => 5
  | .maybe => 3
  | .no => 1

/-- An outstanding POST to `/movies/preferences`
(MovieExplorer.tsx lines 264-267). -/
structure RatingWrite where
  movie_id : Int
  rating : Int
deriving DecidableEq, Repr

/-- An outstanding GET `/movies?results=<results>&ignore=<ignore>`
(MovieExplorer.tsx lines 74-77). -/
structure FetchReq where
  results : Nat
  ignore : List Int
deriving DecidableEq, Repr

/-- Number of movies requested per batch fetch (MovieExplorer.tsx line 64). -/
def FETCH_SIZE : Nat := 10

/-- Queue threshold below which a replenish is triggered
(MovieExplorer.tsx line 65). -/
def MIN_QUEUE_SIZE : Nat := 5

/-- React state and refs of the MovieExplorer component
(MovieExplorer.tsx lines 44-61). -/
structure ExplorerState where
  isInitialMount : Bool
  isReplenishing : Bool
  currentMovie : Option Movie
  movieQueue : List Movie
  loadingMovie : Bool
  seenMovieIds : List Int
  error : Option String
  expanded : Bool
  fullPosterOpen : Bool
  showOverlay : Bool
deriving DecidableEq, Repr

/-- Whole-system state: the component state plus the multisets of
outstanding asynchronous operations and the console diagnostics emitted by
the rating-write failure handler. -/
structure Sys where
  s : ExplorerState
  initPending : List FetchReq
  replenishPending : List FetchReq
  advancePending : List FetchReq
  writePending : List RatingWrite
  console : List String
deriving DecidableEq, Repr

/-- State at view mount (MovieExplorer.tsx lines 44-61: initial useState and
useRef values). -/
def initSys : Sys :=
  { s := { isInitialMount := true
           isReplenishing := false
           currentMovie := none
           movieQueue := []
           loadingMovie := false
           seenMovieIds := []
           error := none
           expanded := false
           fullPosterOpen := false
           showOverlay := true }
    initPending := []
    replenishPending := []
    advancePending := []
    writePending := []
    console := [] }

/-- Synchronous part of the mount effect's `initialize` up to its await
(MovieExplorer.tsx lines 160-168): set loading, clear error, and issue
`fetchMovies()` (count defaults to FETCH_SIZE, ignore list is the current
seen ids — lines 71-77). -/
def initStartCall (sys : Sys) : Sys :=
  { sys with
    s := { sys.s with loadingMovie := true, error := none }
    initPending := sys.initPending ++ [⟨FETCH_SIZE, sys.s.seenMovieIds⟩] }

/-- Resumption of `initialize` when its `fetchMovies()` resolves with the
server's movie list (MovieExplorer.tsx lines 84-89 inside fetchMovies, then
168-188).  A failed or invalid-format fetch is the empty list, since
`fetchMovies` catches all errors and returns `[]` (lines 79-82, 107-110).
The seen-id list is extended by the returned ids, the first normalized movie
becomes current, the rest become the queue (only assigned when more than one
movie returned), an empty result sets the error state; finally loading is
cleared and the initial-mount ref flips to false. -/
def initFinishCall (ms : List Movie) (sys : Sys) : Sys :=
  let s := sys.s
  let s' :=
    match ms with
    | [] => { s with error := some "Failed to fetch movies" }
    | m :: rest =>
        { s with
          currentMovie := some (normalizeMovie m)
          movieQueue := if rest = [] then s.movieQueue else rest.map normalizeMovie }
  { sys with
    s := { s' with
           seenMovieIds := s.seenMovieIds ++ ms.map Movie.id
           loadingMovie := false
           isInitialMount := false }
    initPending := sys.initPending.drop 1 }

/-- The body of `replenishQueue` up to its await
(MovieExplorer.tsx lines 114-133): if the isReplenishing ref is set, return
without fetching; otherwise set the ref, set a loading state only when the
queue is critically low (length < 2), and issue `fetchMovies()`. -/
def replenishQueueCall (sys : Sys) : Sys :=
  if sys.s.isReplenishing then sys
  else
    { sys with
      s := { sys.s with
             isReplenishing := true
             loadingMovie := if sys.s.movieQueue.length < 2 then true else sys.s.loadingMovie }
      replenishPending := sys.replenishPending ++ [⟨FETCH_SIZE, sys.s.seenMovieIds⟩] }

/-- Resumption of `replenishQueue` when its fetch resolves
(MovieExplorer.tsx lines 84-89, 136-148): seen ids are extended, a non-empty
result is appended to the queue, and the finally block clears the loading
state and the isReplenishing ref.  A background failure only logs and is the
same as an empty result. -/
def replenishFinishCall (ms : List Movie) (sys : Sys) : Sys :=
  { sys with
    s := { sys.s with
           seenMovieIds := sys.s.seenMovieIds ++ ms.map Movie.id
           movieQueue := if ms = [] then sys.s.movieQueue
                         else sys.s.movieQueue ++ ms.map normalizeMovie
           loadingMovie := false
           isReplenishing := false }
    replenishPending := sys.replenishPending.drop 1 }

/-- `moveToNextMovie` (MovieExplorer.tsx lines 209-247).  With a non-empty
queue: promote the head to current, drop it from the queue, reset the
expanded flag.  With an empty queue: if the isReplenishing ref is clear, set
it, set loading and issue `fetchMovies(1)`; otherwise do nothing. -/
def moveToNextMovieCall (sys : Sys) : Sys :=
  match sys.s.movieQueue with
  | n :: rest =>
      { sys with
        s := { sys.s with currentMovie := some n, movieQueue := rest, expanded := false } }
  | [] =>
      if sys.s.isReplenishing then sys
      else
        { sys with
          s := { sys.s with isReplenishing := true, loadingMovie := true }
          advancePending := sys.advancePending ++ [⟨1, sys.s.seenMovieIds⟩] }

/-- Resumption of the empty-queue branch of `moveToNextMovie` when its
`fetchMovies(1)` resolves (MovieExplorer.tsx lines 231-244): seen ids are
extended, a non-empty result becomes the current movie, an empty result sets
the error state; loading and the isReplenishing ref are cleared. -/
def advanceFinishCall (ms : List Movie) (sys : Sys) : Sys :=
  { sys with
    s := { sys.s with
           seenMovieIds := sys.s.seenMovieIds ++ ms.map Movie.id
           currentMovie := match ms with
                           | m :: _ => some (normalizeMovie m)
                           | [] => sys.s.currentMovie
           error := if ms = [] then some "Failed to fetch movie" else sys.s.error
           loadingMovie := false
           isReplenishing := false }
    advancePending := sys.advancePending.drop 1 }

/-- Synchronous part of `handleRating` (MovieExplorer.tsx lines 250-267):
with a current movie, capture its id, run `moveToNextMovie` immediately, and
issue the rating POST in the background (not awaited before the advance). -/
def handleRatingCall (v : RatingKind) (sys : Sys) : Sys :=
  match sys.s.currentMovie with
  | none => sys
  | some x =>
      let sys' := moveToNextMovieCall sys
      { sys' with writePending := sys'.writePending ++ [⟨x.id, ratingToNumeric v⟩] }

/-- Resolution of an outstanding rating write (MovieExplorer.tsx
lines 263-271): success and failure both leave the component state
untouched; failure only emits a console diagnostic. -/
def writeFinishCall (w : RatingWrite) (ok : Bool) (sys : Sys) : Sys :=
  { sys with
    writePending := sys.writePending.erase w
    console := if ok then sys.console else sys.console ++ ["Failed to save rating:"] }

/-- Event labels for the scheduler.  Resolve labels carry the server's
response. -/
inductive ELabel where
  | initStart
  | initFinish (ms : List Movie)
  | replenishStart
  | replenishFinish (ms : List Movie)
  | rate (v : RatingKind)
  | skip
  | advanceFinish (ms : List Movie)
  | writeFinish (w : RatingWrite) (ok : Bool)
deriving DecidableEq, Repr

/-- One scheduler step of the live component.  Guards are the code's own
enabling conditions:
  * `initStart` is the mount effect invoking `initialize` (lines 159-191);
    re-invocations while the flag is still true are excluded because the
    effect re-runs only when `seenMovieIds` changes, which cannot happen
    before the initial fetch resolves.
  * `replenishStart` is the reactive effect of lines 195-206 with its
    condition `!loadingMovie && movieQueue.length < MIN_QUEUE_SIZE &&
    currentMovie !== null` (the `isReplenishing` check is inside the call).
  * `rate` is a click on a rating button, rendered only in the ready state
    (no loading screen at line 361, no error screen at line 389, a current
    movie at line 417).
  * `skip` is a click on the Skip button, which is rendered in every state
    (lines 378, 406, 434, 518) and calls `moveToNextMovie` directly.
  * the three fetch-resolve labels consume an outstanding request; per the
    interface contract, the response holds at most the requested number of
    records. -/
inductive Step : Sys → ELabel → Sys → Prop where
  | initStart {sys : Sys} :
      sys.s.isInitialMount = true → sys.initPending = [] →
      Step sys .initStart (initStartCall sys)
  | initFinish {sys : Sys} (ms : List Movie) :
      sys.initPending ≠ [] → ms.length ≤ FETCH_SIZE →
      Step sys (.initFinish ms) (initFinishCall ms sys)
  | replenishStart {sys : Sys} :
      sys.s.loadingMovie = false → sys.s.movieQueue.length < MIN_QUEUE_SIZE →
      sys.s.currentMovie ≠ none →
      Step sys .replenishStart (replenishQueueCall sys)
  | replenishFinish {sys : Sys} (ms : List Movie) :
      sys.replenishPending ≠ [] → ms.length ≤ FETCH_SIZE →
      Step sys (.replenishFinish ms) (replenishFinishCall ms sys)
  | rateStep {sys : Sys} (v : RatingKind) :
      sys.s.loadingMovie = false → sys.s.error = none → sys.s.currentMovie ≠ none →
      Step sys (.rate v) (handleRatingCall v sys)
  | skipStep {sys : Sys} :
      Step sys .skip (moveToNextMovieCall sys)
  | advanceFinish {sys : Sys} (ms : List Movie) :
      sys.advancePending ≠ [] → ms.length ≤ 1 →
      Step sys (.advanceFinish ms) (advanceFinishCall ms sys)
  | writeFinish {sys : Sys} (w : RatingWrite) (ok : Bool) :
      w ∈ sys.writePending →
      Step sys (.writeFinish w ok) (writeFinishCall w ok sys)

/-- Reflexive-transitive closure of `Step` restricted to labels satisfying
`P`. -/
inductive ReachesP (P : ELabel → Prop) : Sys → Sys → Prop where
  | refl (a : Sys) : ReachesP P a a
  | tail {a b c : Sys} {l : ELabel} :
      ReachesP P a b → P l → Step b l c → ReachesP P a c

/-- All labels allowed. -/
abbrev trivLabel : ELabel → Prop := fun _ => True

/-- Labels of a pure rate/replenish interaction sequence: everything except
the Skip button. -/
abbrev noSkip (l : ELabel) : Prop := l ≠ ELabel.skip

/-- States reachable from mount under any interaction. -/
def Reachable (sys : Sys) : Prop := ReachesP trivLabel initSys sys

/-- States reachable from mount by rate/replenish sequences (no Skip). -/
def ReachableRR (sys : Sys) : Prop := ReachesP noSkip initSys sys

/-- The movie-list response consumed by a label, if it is a fetch
resolution. -/
def respOf : ELabel → Option (List Movie)
  | .initFinish ms => some ms
  | .replenishFinish ms => some ms
  | .advanceFinish ms => some ms
  | _ => none

/-- Target queue size of the single-fetch variant
(src/unnamed/part_006 line 54). -/
def QUEUE_SIZE006 : Nat := 3

/-- The `initialize` of the single-fetch variant (src/unnamed/part_006
lines 107-140): QUEUE_SIZE + 1 parallel single fetches, each returning a
movie or null; nulls are filtered out; the first valid movie becomes
current, the rest (when more than one) become the queue; no valid movie sets
the error state.  Returns (current, queue, error). -/
def initFetch006 (results : List (Option Movie)) :
    Option Movie × List Movie × Option String :=
  let validMovies := results.filterMap id
  match validMovies with
  | [] => (none, [], some "Failed to fetch movies")
  | m :: rest => (some m, if rest = [] then [] else rest, none)

end Popcorn

namespace RatingPage

open Popcorn (Genre)

/-- Movie payload of the MovieRatingPage variant
(src/unnamed/part_011 lines 18-26). -/
structure MovieData where
  id : Int
  original_title : String
  overview : String
  poster_path : Option String
  genres : List Genre
  release_date : String
deriving DecidableEq, Repr

/-- Empty movie data template (src/unnamed/part_011 lines 39-46). -/
def emptyMovie : MovieData :=
  { id := 0
    original_title := ""
    overview := ""
    poster_path := none
    genres := []
    release_date := "" }

/-- A 200-status JSON body: the optional `success` and `status_code` fields
checked at src/unnamed/part_011 line 209, plus the movie payload. -/
structure ApiBody where
  success : Option Bool
  status_code : Option Int
  movie : MovieData
deriving DecidableEq, Repr

/-- One upstream response: either a non-ok HTTP status (which makes the
fetch helper throw at line 203) or a 200 body. -/
inductive ApiResponse where
  | httpError (status : Int)
  | ok (b : ApiBody)
deriving DecidableEq, Repr

/-- The transient check of src/unnamed/part_011 line 209:
`data.success === false || data.status_code === 34`. -/
def isTransient (b : ApiBody) : Bool :=
  b.success == some false || b.status_code == some 34

def respTransient : ApiResponse → Bool
  | .httpError _ => false
  | .ok b => isTransient b

/-- `processMovieData` (src/unnamed/part_011 lines 103-120): rebuilds the
record field by field with defaults; on this model every field is present,
and an array of genres passes through, so each field maps to itself. -/
def processMovieData (d : MovieData) : MovieData :=
  { id := d.id
    original_title := d.original_title
    overview := d.overview
    poster_path := d.poster_path
    genres := d.genres
    release_date := d.release_date }

/-- Maximum number of retry attempts (src/unnamed/part_011 line 195). -/
def maxRetries : Nat := 3

instance {ε α : Type} [DecidableEq ε] [DecidableEq α] : DecidableEq (Except ε α)
  | .error x, .error y =>
      if h : x = y then .isTrue (by rw [h])
      else .isFalse (by intro hc; cases hc; exact h rfl)
  | .error _, .ok _ => .isFalse (by intro hc; cases hc)
  | .ok _, .error _ => .isFalse (by intro hc; cases hc)
  | .ok x, .ok y =>
      if h : x = y then .isTrue (by rw [h])
      else .isFalse (by intro hc; cases hc; exact h rfl)

/-- Outcome of one `fetchMovieFromAPI` call: the returned value or thrown
error message, the number of upstream fetches performed, and the backoff
delays awaited (in ms, in order). -/
structure FetchOutcome where
  result : Except String (Option MovieData)
  attempts : Nat
  delays : List Nat
deriving DecidableEq, Repr

/-- The retry loop of `fetchMovieFromAPI` (src/unnamed/part_011
lines 194-248).  `upstream n` is the response to the n-th fetch of the
session; `base` offsets the numbering so consecutive calls consume fresh
responses.  The `fuel` parameter equals `maxRetries - currentRetry` and
encodes the loop guard `currentRetry < maxRetries`; all early exits inside
the body use `currentRetry` and `maxRetries` exactly as the source does.
A transient body increments the retry counter, returns null once the bound
is reached, and otherwise waits `1000 * currentRetry` ms (after the
increment); a throwing fetch is re-thrown once `currentRetry >=
maxRetries - 1` and otherwise retried after the same increasing delay; a
good body returns the processed movie. -/
def fetchFromAPIAux (upstream : Nat → ApiResponse) (base : Nat) :
    Nat → Nat → Nat → List Nat → FetchOutcome
  | 0, _, attempts, delays => ⟨.ok none, attempts, delays⟩
  | fuel + 1, currentRetry, attempts, delays =>
      match upstream (base + attempts) with
      | .httpError status =>
          if maxRetries - 1 ≤ currentRetry then
            ⟨.error ("API request failed with status " ++ toString status),
             attempts + 1, delays⟩
          else
            fetchFromAPIAux upstream base fuel (currentRetry + 1) (attempts + 1)
              (delays ++ [1000 * (currentRetry + 1)])
      | .ok b =>
          if isTransient b then
            if maxRetries ≤ currentRetry + 1 then ⟨.ok none, attempts + 1, delays⟩
            else
              fetchFromAPIAux upstream base fuel (currentRetry + 1) (attempts + 1)
                (delays ++ [1000 * (currentRetry + 1)])
          else ⟨.ok (some (processMovieData b.movie)), attempts + 1, delays⟩

/-- One call of `fetchMovieFromAPI` whose fetches consume upstream responses
starting at index `base`. -/
def fetchMovieFromAPIAt (upstream : Nat → ApiResponse) (base : Nat) : FetchOutcome :=
  fetchFromAPIAux upstream base maxRetries 0 0 []

/-- `fetchMovieFromAPI` from a fresh session (src/unnamed/part_011
lines 194-248). -/
def fetchMovieFromAPI (upstream : Nat → ApiResponse) : FetchOutcome :=
  fetchMovieFromAPIAt upstream 0

/-- JS `String.prototype.includes`: substring test. -/
def jsIncludes (s pat : String) : Bool :=
  decide (pat.toList <:+: s.toList)

/-- Result of the foreground `fetchNextMovie` (src/unnamed/part_011
lines 283-334): the resulting movieData, error state and snackbar flag,
the final loading flag, and the total fetch attempts and delays of the whole
foreground path. -/
structure PageFetchResult where
  movieData : Option MovieData
  error : Option String
  snackbarOpen : Bool
  loading : Bool
  attempts : Nat
  delays : List Nat
deriving DecidableEq, Repr

/-- The foreground fetch `fetchNextMovie` (src/unnamed/part_011
lines 283-334), given the movieData and error values before the call.  On a
null result it waits 1000 ms and silently calls `fetchMovieFromAPI` once
more; if that is still null it keeps the previous movie (or substitutes
`emptyMovie`) and surfaces no error.  A thrown error sets the user-visible
error and snackbar unless its message contains "status_code: 34" (thrown
messages are "API request failed with status N", so the check matters only
in principle); in that silent case the previous movie is kept or
`emptyMovie` substituted.  `finally` always clears loading. -/
def fetchNextMovie (upstream : Nat → ApiResponse)
    (prevMovieData : Option MovieData) (prevError : Option String) :
    PageFetchResult :=
  let silentKeep : Option MovieData :=
    match prevMovieData with
    | none => some emptyMovie
    | some p => some p
  let catchBranch (msg : String) (attempts : Nat) (delays : List Nat) :
      PageFetchResult :=
    if jsIncludes msg "status_code: 34" then
      ⟨silentKeep, prevError, false, false, attempts, delays⟩
    else
      ⟨prevMovieData, some "Failed to load next movie. Please try again later.",
       true, false, attempts, delays⟩
  let o1 := fetchMovieFromAPIAt upstream 0
  match o1.result with
  | .error msg => catchBranch msg o1.attempts o1.delays
  | .ok (some d) => ⟨some d, none, false, false, o1.attempts, o1.delays⟩
  | .ok none =>
      let o2 := fetchMovieFromAPIAt upstream o1.attempts
      match o2.result with
      | .error msg =>
          catchBranch msg (o1.attempts + o2.attempts)
            (o1.delays ++ [1000] ++ o2.delays)
      | .ok (some d) =>
          ⟨some d, none, false, false, o1.attempts + o2.attempts,
           o1.delays ++ [1000] ++ o2.delays⟩
      | .ok none =>
          ⟨silentKeep, prevError, false, false, o1.attempts + o2.attempts,
           o1.delays ++ [1000] ++ o2.delays⟩

end RatingPage


namespace Popcorn

/-- Reentrancy-guard invariant: at most one replenish-or-advance fetch is
outstanding, and a clear isReplenishing ref means none is. -/
def InvC1 (sys : Sys) : Prop :=
  sys.replenishPending.length + sys.advancePending.length ≤ 1 ∧
  (sys.s.isReplenishing = false →
     sys.replenishPending = [] ∧ sys.advancePending = [])

lemma invC1_initSys : InvC1 initSys := by
  constructor <;> simp [initSys]

lemma invC1_step {sys sys' : Sys} {l : ELabel}
    (h : Step sys l sys') (hi : InvC1 sys) : InvC1 sys' := by
  obtain ⟨hA, hB⟩ := hi
  cases h with
  | initStart hm hp =>
      exact ⟨by simpa [initStartCall] using hA, by simpa [initStartCall] using hB⟩
  | initFinish ms hp hlen =>
      refine ⟨by simpa [initFinishCall] using hA, ?_⟩
      cases ms with
      | nil => simpa [initFinishCall] using hB
      | cons m rest => simpa [initFinishCall] using hB
  | replenishStart hl hq hc =>
      rcases Bool.eq_false_or_eq_true sys.s.isReplenishing with hrep | hrep
      · exact ⟨by simpa [replenishQueueCall, hrep] using hA,
               by simpa [replenishQueueCall, hrep] using hB⟩
      · obtain ⟨h1, h2⟩ := hB hrep
        exact ⟨by simp [replenishQueueCall, hrep, h1, h2],
               by simp [replenishQueueCall, hrep, h1, h2]⟩
  | replenishFinish ms hp hlen =>
      have h1 : 1 ≤ sys.replenishPending.length := by
        cases hrp : sys.replenishPending with
        | nil => exact absurd hrp hp
        | cons a t => simp [hrp]
      have h2 := List.length_drop 1 sys.replenishPending
      have hre : (sys.replenishPending.drop 1) = [] :=
        List.eq_nil_of_length_eq_zero (by omega)
      have hae : sys.advancePending = [] :=
        List.eq_nil_of_length_eq_zero (by omega)
      exact ⟨by simp [replenishFinishCall, hre, hae],
             by simp [replenishFinishCall, hre, hae]⟩
  | rateStep v hl he hc =>
      cases hcur : sys.s.currentMovie with
      | none => exact absurd hcur hc
      | some x =>
          cases hq : sys.s.movieQueue with
          | cons n rest =>
              exact ⟨by simpa [handleRatingCall, moveToNextMovieCall, hcur, hq] using hA,
                     by simpa [handleRatingCall, moveToNextMovieCall, hcur, hq] using hB⟩
          | nil =>
              rcases Bool.eq_false_or_eq_true sys.s.isReplenishing with hrep | hrep
              · exact ⟨by simpa [handleRatingCall, moveToNextMovieCall, hcur, hq, hrep] using hA,
                       by simpa [handleRatingCall, moveToNextMovieCall, hcur, hq, hrep] using hB⟩
              · obtain ⟨h1, h2⟩ := hB hrep
                exact ⟨by simp [handleRatingCall, moveToNextMovieCall, hcur, hq, hrep, h1, h2],
                       by simp [handleRatingCall, moveToNextMovieCall, hcur, hq, hrep, h1, h2]⟩
  | skipStep =>
      cases hq : sys.s.movieQueue with
      | cons n rest =>
          exact ⟨by simpa [moveToNextMovieCall, hq] using hA,
                 by simpa [moveToNextMovieCall, hq] using hB⟩
      | nil =>
          rcases Bool.eq_false_or_eq_true sys.s.isReplenishing with hrep | hrep
          · exact ⟨by simpa [moveToNextMovieCall, hq, hrep] using hA,
                   by simpa [moveToNextMovieCall, hq, hrep] using hB⟩
          · obtain ⟨h1, h2⟩ := hB hrep
            exact ⟨by simp [moveToNextMovieCall, hq, hrep, h1, h2],
                   by simp [moveToNextMovieCall, hq, hrep, h1, h2]⟩
  | advanceFinish ms hp hlen =>
      have h1 : 1 ≤ sys.advancePending.length := by
        cases hap : sys.advancePending with
        | nil => exact absurd hap hp
        | cons a t => simp [hap]
      have h2 := List.length_drop 1 sys.advancePending
      have hae : (sys.advancePending.drop 1) = [] :=
        List.eq_nil_of_length_eq_zero (by omega)
      have hre : sys.replenishPending = [] :=
        List.eq_nil_of_length_eq_zero (by omega)
      exact ⟨by simp [advanceFinishCall, hre, hae],
             by simp [advanceFinishCall, hre, hae]⟩
  | writeFinish w ok hw =>
      exact ⟨by simpa [writeFinishCall] using hA, by simpa [writeFinishCall] using hB⟩

lemma reachesP_invC1 {P : ELabel → Prop} {a b : Sys}
    (h : ReachesP P a b) (ha : InvC1 a) : InvC1 b := by
  induction h with
  | refl => exact ha
  | tail hr hp hs ih => exact invC1_step hs ih


/-- Every step only extends the accumulated seen-id list: ids are appended
on fetch resolutions and never removed. -/
lemma step_seen_mono {sys sys' : Sys} {l : ELabel}
    (h : Step sys l sys') :
    ∀ i, i ∈ sys.s.seenMovieIds → i ∈ sys'.s.seenMovieIds := by
  intro i hi
  cases h with
  | initStart hm hp => simpa [initStartCall] using hi
  | initFinish ms hp hlen =>
      cases ms with
      | nil => simp [initFinishCall, hi]
      | cons m rest => simp [initFinishCall, hi]
  | replenishStart hl hq hc =>
      rcases Bool.eq_false_or_eq_true sys.s.isReplenishing with hrep | hrep <;>
        simp [replenishQueueCall, hrep, hi]
  | replenishFinish ms hp hlen => simp [replenishFinishCall, hi]
  | rateStep v hl he hc =>
      cases hcur : sys.s.currentMovie with
      | none => exact absurd hcur hc
      | some x =>
          cases hq : sys.s.movieQueue with
          | cons n rest => simpa [handleRatingCall, moveToNextMovieCall, hcur, hq] using hi
          | nil =>
              rcases Bool.eq_false_or_eq_true sys.s.isReplenishing with hrep | hrep <;>
                simpa [handleRatingCall, moveToNextMovieCall, hcur, hq, hrep] using hi
  | skipStep =>
      cases hq : sys.s.movieQueue with
      | cons n rest => simpa [moveToNextMovieCall, hq] using hi
      | nil =>
          rcases Bool.eq_false_or_eq_true sys.s.isReplenishing with hrep | hrep <;>
            simpa [moveToNextMovieCall, hq, hrep] using hi
  | advanceFinish ms hp hlen => simp [advanceFinishCall, hi]
  | writeFinish w ok hw => simpa [writeFinishCall] using hi

lemma reachesP_seen_mono {P : ELabel → Prop} {a b : Sys}
    (h : ReachesP P a b) :
    ∀ i, i ∈ a.s.seenMovieIds → i ∈ b.s.seenMovieIds := by
  induction h with
  | refl => exact fun i hi => hi
  | tail hr hp hs ih => exact fun i hi => step_seen_mono hs i (ih i hi)

/-- A fetch-resolving step records every returned movie id in the seen
list. -/
lemma step_seen_resp {sys sys' : Sys} {l : ELabel} {ms : List Movie}
    (h : Step sys l sys') (hr : respOf l = some ms) :
    ∀ i ∈ ms.map Movie.id, i ∈ sys'.s.seenMovieIds := by
  intro i hi
  cases h with
  | initStart hm hp => simp [respOf] at hr
  | initFinish ms' hp hlen =>
      obtain rfl : ms' = ms := by simpa [respOf] using hr
      cases ms' with
      | nil => simp at hi
      | cons m rest =>
          simp only [List.map_cons, List.mem_cons, List.mem_map] at hi
          simp [initFinishCall]
          tauto
  | replenishStart hl hq hc => simp [respOf] at hr
  | replenishFinish ms' hp hlen =>
      obtain rfl : ms' = ms := by simpa [respOf] using hr
      simp [replenishFinishCall, hi]
  | rateStep v hl he hc => simp [respOf] at hr
  | skipStep => simp [respOf] at hr
  | advanceFinish ms' hp hlen =>
      obtain rfl : ms' = ms := by simpa [respOf] using hr
      simp [advanceFinishCall, hi]
  | writeFinish w ok hw => simp [respOf] at hr


/-- Inductive invariant of rate/replenish interaction sequences (no Skip
button): the reentrancy-guard invariant, mount-state properties, the
initial-fetch bookkeeping, the trigger bound on the queue while a replenish
is outstanding, and the overall queue bound. -/
def InvRR (sys : Sys) : Prop :=
  InvC1 sys ∧
  (sys.s.isInitialMount = true →
     sys.s.currentMovie = none ∧ sys.s.movieQueue = [] ∧
     sys.replenishPending = [] ∧ sys.advancePending = [] ∧ sys.writePending = []) ∧
  (sys.initPending ≠ [] → sys.s.isInitialMount = true ∧ sys.s.loadingMovie = true) ∧
  sys.initPending.length ≤ 1 ∧
  (sys.replenishPending ≠ [] → sys.s.movieQueue.length ≤ MIN_QUEUE_SIZE - 1) ∧
  sys.s.movieQueue.length ≤ MIN_QUEUE_SIZE - 1 + FETCH_SIZE

lemma invRR_initSys : InvRR initSys := by
  refine ⟨invC1_initSys, ?_, ?_, ?_, ?_, ?_⟩ <;> simp [initSys]

lemma invRR_step {sys sys' : Sys} {l : ELabel}
    (hns : noSkip l) (h : Step sys l sys') (hi : InvRR sys) : InvRR sys' := by
  obtain ⟨hC1, hB, hD, hE, hF, hG⟩ := hi
  refine ⟨invC1_step h hC1, ?_⟩
  cases h with
  | initStart hm hp =>
      obtain ⟨c1, c2, c3, c4, c5⟩ := hB hm
      refine ⟨?_, ?_, ?_, ?_, ?_⟩
      · intro _
        exact ⟨by simp [initStartCall, c1], by simp [initStartCall, c2],
               by simp [initStartCall, c3], by simp [initStartCall, c4],
               by simp [initStartCall, c5]⟩
      · intro _
        exact ⟨by simpa [initStartCall] using hm, by simp [initStartCall]⟩
      · simp [initStartCall, hp]
      · intro _
        simp [initStartCall, c2]
      · simp [initStartCall, c2, MIN_QUEUE_SIZE, FETCH_SIZE]
  | initFinish ms hp hlen =>
      obtain ⟨him, hld⟩ := hD hp
      obtain ⟨c1, c2, c3, c4, c5⟩ := hB him
      refine ⟨?_, ?_, ?_, ?_, ?_⟩
      · intro him'
        cases ms with
        | nil => simp [initFinishCall] at him'
        | cons m rest => simp [initFinishCall] at him'
      · intro hne
        have h1 := List.length_drop 1 sys.initPending
        have : (sys.initPending.drop 1) = [] :=
          List.eq_nil_of_length_eq_zero (by omega)
        simp [initFinishCall, this] at hne
      · simp only [initFinishCall]
        have := List.length_drop 1 sys.initPending
        omega
      · intro hrep
        simp only [initFinishCall] at hrep
        exact absurd hrep (by simp [c3])
      · cases ms with
        | nil => simpa [initFinishCall, c2] using hG
        | cons m rest =>
            simp only [initFinishCall]
            by_cases hrest : rest = []
            · simp [hrest, c2, MIN_QUEUE_SIZE, FETCH_SIZE]
            · simp only [FETCH_SIZE, List.length_cons] at hlen
              simp [hrest, MIN_QUEUE_SIZE, FETCH_SIZE]
              omega
  | replenishStart hl hq hc =>
      have him : sys.s.isInitialMount = false := by
        rcases Bool.eq_false_or_eq_true sys.s.isInitialMount with hx | hx
        · exact absurd (hB hx).1 hc
        · exact hx
      have hip : sys.initPending = [] := by
        cases hx : sys.initPending with
        | nil => rfl
        | cons a t =>
            exact absurd (hD (by simp [hx])).2 (by simp [hl])
      rcases Bool.eq_false_or_eq_true sys.s.isReplenishing with hrep | hrep
      · have hid : replenishQueueCall sys = sys := by simp [replenishQueueCall, hrep]
        rw [hid]
        exact ⟨hB, hD, hE, hF, hG⟩
      · refine ⟨?_, ?_, ?_, ?_, ?_⟩
        · intro him'
          simp [replenishQueueCall, hrep, him] at him'
        · intro hne
          simp [replenishQueueCall, hrep, hip] at hne
        · simp [replenishQueueCall, hrep, hip]
        · intro _
          have hq' : sys.s.movieQueue.length < 5 := by simpa [MIN_QUEUE_SIZE] using hq
          simp only [replenishQueueCall, hrep]
          simp [MIN_QUEUE_SIZE]
          omega
        · simpa [replenishQueueCall, hrep] using hG
  | replenishFinish ms hp hlen =>
      have hq4 := hF hp
      have him : sys.s.isInitialMount = false := by
        rcases Bool.eq_false_or_eq_true sys.s.isInitialMount with hx | hx
        · exact absurd (hB hx).2.2.1 hp
        · exact hx
      have hip : sys.initPending = [] := by
        cases hx : sys.initPending with
        | nil => rfl
        | cons a t => exact absurd (hD (by simp [hx])).1 (by simp [him])
      refine ⟨?_, ?_, ?_, ?_, ?_⟩
      · intro him'
        simp [replenishFinishCall, him] at him'
      · intro hne
        simp [replenishFinishCall, hip] at hne
      · simpa [replenishFinishCall] using hE
      · intro hne
        simp only [replenishFinishCall] at hne
        have h1 : 1 ≤ sys.replenishPending.length := by
          cases hx : sys.replenishPending with
          | nil => exact absurd hx hp
          | cons a t => simp [hx]
        have h2 := List.length_drop 1 sys.replenishPending
        have hC := hC1.1
        exact absurd (List.eq_nil_of_length_eq_zero (by omega)) hne
      · simp only [replenishFinishCall]
        simp only [MIN_QUEUE_SIZE] at hq4
        by_cases hms : ms = []
        · simp [hms, MIN_QUEUE_SIZE, FETCH_SIZE]
          omega
        · simp only [FETCH_SIZE] at hlen
          simp [hms, MIN_QUEUE_SIZE, FETCH_SIZE]
          omega
  | rateStep v hl he hc =>
      have him : sys.s.isInitialMount = false := by
        rcases Bool.eq_false_or_eq_true sys.s.isInitialMount with hx | hx
        · exact absurd (hB hx).1 hc
        · exact hx
      have hip : sys.initPending = [] := by
        cases hx : sys.initPending with
        | nil => rfl
        | cons a t => exact absurd (hD (by simp [hx])).2 (by simp [hl])
      cases hcur : sys.s.currentMovie with
      | none => exact absurd hcur hc
      | some x =>
          cases hq : sys.s.movieQueue with
          | cons n rest =>
              refine ⟨?_, ?_, ?_, ?_, ?_⟩
              · intro him'
                simp [handleRatingCall, moveToNextMovieCall, hcur, hq, him] at him'
              · intro hne
                simp [handleRatingCall, moveToNextMovieCall, hcur, hq, hip] at hne
              · simpa [handleRatingCall, moveToNextMovieCall, hcur, hq] using hE
              · intro hne
                simp only [handleRatingCall, moveToNextMovieCall, hcur, hq] at hne ⊢
                have := hF (by simpa using hne)
                rw [hq] at this
                simp only [List.length_cons] at this
                simp only [MIN_QUEUE_SIZE] at this ⊢
                omega
              · simp only [handleRatingCall, moveToNextMovieCall, hcur, hq]
                have := hG
                rw [hq] at this
                simp only [List.length_cons] at this
                simp only [MIN_QUEUE_SIZE, FETCH_SIZE] at this ⊢
                omega
          | nil =>
              rcases Bool.eq_false_or_eq_true sys.s.isReplenishing with hrep | hrep
              · refine ⟨?_, ?_, ?_, ?_, ?_⟩
                · intro him'
                  simp [handleRatingCall, moveToNextMovieCall, hcur, hq, hrep, him] at him'
                · intro hne
                  simp [handleRatingCall, moveToNextMovieCall, hcur, hq, hrep, hip] at hne
                · simpa [handleRatingCall, moveToNextMovieCall, hcur, hq, hrep] using hE
                · intro _
                  simp [handleRatingCall, moveToNextMovieCall, hcur, hq, hrep]
                · simp [handleRatingCall, moveToNextMovieCall, hcur, hq, hrep,
                        MIN_QUEUE_SIZE, FETCH_SIZE]
              · refine ⟨?_, ?_, ?_, ?_, ?_⟩
                · intro him'
                  simp [handleRatingCall, moveToNextMovieCall, hcur, hq, hrep, him] at him'
                · intro hne
                  simp [handleRatingCall, moveToNextMovieCall, hcur, hq, hrep, hip] at hne
                · simpa [handleRatingCall, moveToNextMovieCall, hcur, hq, hrep] using hE
                · intro _
                  simp [handleRatingCall, moveToNextMovieCall, hcur, hq, hrep]
                · simp [handleRatingCall, moveToNextMovieCall, hcur, hq, hrep,
                        MIN_QUEUE_SIZE, FETCH_SIZE]
  | skipStep => exact absurd rfl hns
  | advanceFinish ms hp hlen =>
      have him : sys.s.isInitialMount = false := by
        rcases Bool.eq_false_or_eq_true sys.s.isInitialMount with hx | hx
        · exact absurd (hB hx).2.2.2.1 hp
        · exact hx
      have hip : sys.initPending = [] := by
        cases hx : sys.initPending with
        | nil => rfl
        | cons a t => exact absurd (hD (by simp [hx])).1 (by simp [him])
      refine ⟨?_, ?_, ?_, ?_, ?_⟩
      · intro him'
        simp [advanceFinishCall, him] at him'
      · intro hne
        simp [advanceFinishCall, hip] at hne
      · simpa [advanceFinishCall] using hE
      · intro hne
        simp only [advanceFinishCall] at hne ⊢
        exact hF (by simpa using hne)
      · simpa [advanceFinishCall] using hG
  | writeFinish w ok hw =>
      have him : sys.s.isInitialMount = false := by
        rcases Bool.eq_false_or_eq_true sys.s.isInitialMount with hx | hx
        · have := (hB hx).2.2.2.2
          rw [this] at hw
          exact absurd hw (List.not_mem_nil w)
        · exact hx
      refine ⟨?_, ?_, ?_, ?_, ?_⟩
      · intro him'
        simp [writeFinishCall, him] at him'
      · intro hne
        simp only [writeFinishCall] at hne
        exact ⟨by simpa [writeFinishCall] using (hD hne).1,
               by simpa [writeFinishCall] using (hD hne).2⟩
      · simpa [writeFinishCall] using hE
      · intro hne
        simp only [writeFinishCall] at hne ⊢
        exact hF hne
      · simpa [writeFinishCall] using hG

lemma reachesP_invRR {a b : Sys}
    (h : ReachesP noSkip a b) (ha : InvRR a) : InvRR b := by
  induction h with
  | refl => exact ha
  | tail hr hp hs ih => exact invRR_step hp hs ih


/-- A minimal concrete movie record used in witnesses and counterexamples. -/
def mkM (i : Int) : Movie :=
  { id := i
    title := "t"
    original_title := "t"
    overview := "o"
    poster_path := none
    release_date := "2020-01-01"
    vote_average := 7
    runtime := none
    genres := [] }

/-- n concrete movies with ids lo, lo+1, ... -/
def mkMs (lo n : Nat) : List Movie :=
  (List.range n).map (fun k => mkM (Int.ofNat (lo + k)))

/-- State right after the mount effect issued the initial fetch. -/
def demoA : Sys := initStartCall initSys

/-- State after the initial fetch resolved with a single movie (id 1). -/
def demoB1 : Sys := initFinishCall [mkM 1] demoA

/-- State after the initial fetch resolved with movies 1, 2, 3. -/
def demoB3 : Sys := initFinishCall [mkM 1, mkM 2, mkM 3] demoA

/-- State after the replenish effect fired from demoB1: the isReplenishing
ref is set and one replenish fetch is outstanding. -/
def demoguard : Sys := replenishQueueCall demoB1

/-- State after that replenish resolved with movie 1 again (the source
ignored the exclusion list): the seen list now holds id 1 twice. -/
def demodup : Sys := replenishFinishCall [mkM 1] demoguard

lemma demoguard_reach : Reachable demoguard := by
  have h0 : ReachesP trivLabel initSys initSys := .refl _
  have h1 := ReachesP.tail h0 trivial (Step.initStart rfl rfl)
  have h2 := ReachesP.tail h1 trivial
    (Step.initFinish [mkM 1] (by decide) (by decide))
  exact ReachesP.tail h2 trivial
    (Step.replenishStart (by decide) (by decide) (by decide))

lemma demodup_reach : Reachable demodup := by
  have h3 := demoguard_reach
  exact ReachesP.tail h3 trivial
    (Step.replenishFinish [mkM 1] (by decide) (by decide))


/-- C1: At-most-one in-flight replenishment.  In every state reachable from
mount, at most one replenishment fetch is outstanding; moreover invoking
`replenishQueue` while the isReplenishing ref is set (i.e. while a previous
invocation has started and not yet resolved) performs no fetch and leaves
the state unchanged, which is the reentrancy guard of
MovieExplorer.tsx lines 116-121. -/
theorem c1_at_most_one_replenish (sys : Sys) (h : Reachable sys) :
    sys.replenishPending.length ≤ 1 ∧
    (sys.s.isReplenishing = true → replenishQueueCall sys = sys) := by
  have hi := reachesP_invC1 h invC1_initSys
  refine ⟨by have := hi.1; omega, ?_⟩
  intro hrep
  simp [replenishQueueCall, hrep]

theorem c1_witness :
    demoguard.replenishPending.length ≤ 1 ∧
    (demoguard.s.isReplenishing = true →
       replenishQueueCall demoguard = demoguard) :=
  c1_at_most_one_replenish demoguard demoguard_reach

/-- C2: Immediate advance on rate.  For every state with a current movie and
a non-empty queue, the synchronous part of `handleRating` promotes the prior
queue head to current and drops it from the queue, and issues the rating
write (which stays outstanding, i.e. it is not awaited before the advance);
no fetch is issued in this case and the seen list is untouched. -/
theorem c2_immediate_advance (sys : Sys) (v : RatingKind) (x a : Movie)
    (rest : List Movie)
    (h1 : sys.s.currentMovie = some x) (h2 : sys.s.movieQueue = a :: rest) :
    (handleRatingCall v sys).s.currentMovie = some a ∧
    (handleRatingCall v sys).s.movieQueue = rest ∧
    (handleRatingCall v sys).writePending
      = sys.writePending ++ [⟨x.id, ratingToNumeric v⟩] ∧
    (handleRatingCall v sys).replenishPending = sys.replenishPending ∧
    (handleRatingCall v sys).advancePending = sys.advancePending ∧
    (handleRatingCall v sys).s.seenMovieIds = sys.s.seenMovieIds := by
  refine ⟨?_, ?_, ?_, ?_, ?_, ?_⟩ <;>
    simp [handleRatingCall, moveToNextMovieCall, h1, h2]

theorem c2_witness :
    (handleRatingCall .yes demoB3).s.currentMovie
      = some (normalizeMovie (mkM 2)) ∧
    (handleRatingCall .yes demoB3).s.movieQueue = [normalizeMovie (mkM 3)] ∧
    (handleRatingCall .yes demoB3).writePending
      = demoB3.writePending ++ [⟨(normalizeMovie (mkM 1)).id, ratingToNumeric .yes⟩] ∧
    (handleRatingCall .yes demoB3).replenishPending = demoB3.replenishPending ∧
    (handleRatingCall .yes demoB3).advancePending = demoB3.advancePending ∧
    (handleRatingCall .yes demoB3).s.seenMovieIds = demoB3.s.seenMovieIds :=
  c2_immediate_advance demoB3 .yes (normalizeMovie (mkM 1))
    (normalizeMovie (mkM 2)) [normalizeMovie (mkM 3)] (by decide) (by decide)

/-- C5: Write failure isolation.  For every state with a current movie X and
queue A :: rest, rating followed by a failing write resolution yields exactly
the same component state and outstanding writes as rating followed by a
succeeding one (current = A, queue = rest), the error state is untouched by
both, and the only difference is a console diagnostic appended on failure
(MovieExplorer.tsx lines 268-271). -/
theorem c5_write_failure_isolation (sys : Sys) (v : RatingKind) (x a : Movie)
    (rest : List Movie) (w : RatingWrite)
    (h1 : sys.s.currentMovie = some x) (h2 : sys.s.movieQueue = a :: rest) :
    (writeFinishCall w false (handleRatingCall v sys)).s
      = (writeFinishCall w true (handleRatingCall v sys)).s ∧
    (writeFinishCall w false (handleRatingCall v sys)).writePending
      = (writeFinishCall w true (handleRatingCall v sys)).writePending ∧
    (writeFinishCall w false (handleRatingCall v sys)).s.currentMovie = some a ∧
    (writeFinishCall w false (handleRatingCall v sys)).s.movieQueue = rest ∧
    (writeFinishCall w false (handleRatingCall v sys)).s.error = sys.s.error ∧
    (writeFinishCall w false (handleRatingCall v sys)).console
      = (writeFinishCall w true (handleRatingCall v sys)).console
        ++ ["Failed to save rating:"] := by
  refine ⟨?_, ?_, ?_, ?_, ?_, ?_⟩ <;>
    simp [writeFinishCall, handleRatingCall, moveToNextMovieCall, h1, h2]

theorem c5_witness :
    (writeFinishCall ⟨1, 5⟩ false (handleRatingCall .yes demoB3)).s
      = (writeFinishCall ⟨1, 5⟩ true (handleRatingCall .yes demoB3)).s ∧
    (writeFinishCall ⟨1, 5⟩ false (handleRatingCall .yes demoB3)).writePending
      = (writeFinishCall ⟨1, 5⟩ true (handleRatingCall .yes demoB3)).writePending ∧
    (writeFinishCall ⟨1, 5⟩ false (handleRatingCall .yes demoB3)).s.currentMovie
      = some (normalizeMovie (mkM 2)) ∧
    (writeFinishCall ⟨1, 5⟩ false (handleRatingCall .yes demoB3)).s.movieQueue
      = [normalizeMovie (mkM 3)] ∧
    (writeFinishCall ⟨1, 5⟩ false (handleRatingCall .yes demoB3)).s.error
      = demoB3.s.error ∧
    (writeFinishCall ⟨1, 5⟩ false (handleRatingCall .yes demoB3)).console
      = (writeFinishCall ⟨1, 5⟩ true (handleRatingCall .yes demoB3)).console
        ++ ["Failed to save rating:"] :=
  c5_write_failure_isolation demoB3 .yes (normalizeMovie (mkM 1))
    (normalizeMovie (mkM 2)) [normalizeMovie (mkM 3)] ⟨1, 5⟩
    (by decide) (by decide)

/-- C6: Dedup propagation.  After any fetch resolves with movie list ms,
every returned id is in the seen list, stays in it across any further steps,
and the next replenishment issued from a state with the guard clear passes
the accumulated seen list — hence all of ms's ids — as the request's
exclusion list (MovieExplorer.tsx lines 74-77, 84-89). -/
theorem c6_dedup_propagation {sysA sysB sysC : Sys} {l : ELabel}
    {ms : List Movie}
    (h1 : Step sysA l sysB) (h2 : respOf l = some ms)
    (h3 : ReachesP trivLabel sysB sysC)
    (h4 : sysC.s.isReplenishing = false) :
    (∀ i ∈ ms.map Movie.id, i ∈ sysB.s.seenMovieIds) ∧
    (replenishQueueCall sysC).replenishPending
      = sysC.replenishPending ++ [⟨FETCH_SIZE, sysC.s.seenMovieIds⟩] ∧
    (∀ i ∈ ms.map Movie.id, i ∈ sysC.s.seenMovieIds) := by
  refine ⟨step_seen_resp h1 h2, ?_, ?_⟩
  · simp [replenishQueueCall, h4]
  · exact fun i hi => reachesP_seen_mono h3 i (step_seen_resp h1 h2 i hi)

theorem c6_witness :
    (∀ i ∈ ([mkM 1, mkM 2, mkM 3].map Movie.id), i ∈ demoB3.s.seenMovieIds) ∧
    (replenishQueueCall demoB3).replenishPending
      = demoB3.replenishPending ++ [⟨FETCH_SIZE, demoB3.s.seenMovieIds⟩] ∧
    (∀ i ∈ ([mkM 1, mkM 2, mkM 3].map Movie.id), i ∈ demoB3.s.seenMovieIds) :=
  c6_dedup_propagation
    (Step.initFinish [mkM 1, mkM 2, mkM 3] (by decide) (by decide))
    rfl (.refl _) (by decide)

/-- C10: Replenish frame property.  A replenish issue step changes none of
current movie, queue, seen list and error; a replenish resolution (success
or failure, the latter being the empty response) only appends the fetched
movies to the end of the queue and their ids to the seen list, leaving
current and error untouched. -/
theorem c10_replenish_frame (sys sys' : Sys) (ms : List Movie) :
    (Step sys .replenishStart sys' →
       sys'.s.currentMovie = sys.s.currentMovie ∧
       sys'.s.movieQueue = sys.s.movieQueue ∧
       sys'.s.seenMovieIds = sys.s.seenMovieIds ∧
       sys'.s.error = sys.s.error) ∧
    (Step sys (.replenishFinish ms) sys' →
       sys'.s.currentMovie = sys.s.currentMovie ∧
       sys'.s.movieQueue = sys.s.movieQueue ++ ms.map normalizeMovie ∧
       sys'.s.seenMovieIds = sys.s.seenMovieIds ++ ms.map Movie.id ∧
       sys'.s.error = sys.s.error) := by
  constructor
  · intro h
    cases h with
    | replenishStart hl hq hc =>
        rcases Bool.eq_false_or_eq_true sys.s.isReplenishing with hrep | hrep <;>
          exact ⟨by simp [replenishQueueCall, hrep],
                 by simp [replenishQueueCall, hrep],
                 by simp [replenishQueueCall, hrep],
                 by simp [replenishQueueCall, hrep]⟩
  · intro h
    cases h with
    | replenishFinish ms hp hlen =>
        by_cases hms : ms = []
        · exact ⟨by simp [replenishFinishCall, hms],
                 by simp [replenishFinishCall, hms],
                 by simp [replenishFinishCall, hms],
                 by simp [replenishFinishCall, hms]⟩
        · exact ⟨by simp [replenishFinishCall, hms],
                 by simp [replenishFinishCall, hms],
                 by simp [replenishFinishCall, hms],
                 by simp [replenishFinishCall, hms]⟩

theorem c10_witness :
    (demoguard.s.currentMovie = demoB1.s.currentMovie ∧
     demoguard.s.movieQueue = demoB1.s.movieQueue ∧
     demoguard.s.seenMovieIds = demoB1.s.seenMovieIds ∧
     demoguard.s.error = demoB1.s.error) ∧
    (demodup.s.currentMovie = demoguard.s.currentMovie ∧
     demodup.s.movieQueue
       = demoguard.s.movieQueue ++ [mkM 1].map normalizeMovie ∧
     demodup.s.seenMovieIds
       = demoguard.s.seenMovieIds ++ [mkM 1].map Movie.id ∧
     demodup.s.error = demoguard.s.error) :=
  ⟨(c10_replenish_frame demoB1 demoguard []).1
     (Step.replenishStart (by decide) (by decide) (by decide)),
   (c10_replenish_frame demoguard demodup [mkM 1]).2
     (Step.replenishFinish [mkM 1] (by decide) (by decide))⟩


/-- C3 (amended): Buffer bound.  Along every rate/replenish interaction
sequence from mount, the queue length stays between 0 (trivially, as a list)
and MIN_QUEUE_SIZE - 1 + FETCH_SIZE = 14: a replenish only fires when the
queue is below MIN_QUEUE_SIZE and appends at most FETCH_SIZE movies.  The
claimed bound by the configured target (FETCH_SIZE = 10) does not hold, see
the counterexample. -/
theorem c3_buffer_bound (sys : Sys) (h : ReachableRR sys) :
    sys.s.movieQueue.length ≤ MIN_QUEUE_SIZE - 1 + FETCH_SIZE :=
  (reachesP_invRR h invRR_initSys).2.2.2.2.2

theorem c3_witness :
    initSys.s.movieQueue.length ≤ MIN_QUEUE_SIZE - 1 + FETCH_SIZE :=
  c3_buffer_bound initSys (.refl _)

/-- State after: initial fetch returns 10 movies (queue 9), five ratings
(queue 4), the replenish effect fires (4 < 5) and resolves with 10 more
movies: queue length 14. -/
def demoC3a : Sys := initFinishCall (mkMs 1 10) (initStartCall initSys)

def demoC3b : Sys :=
  handleRatingCall .yes (handleRatingCall .yes (handleRatingCall .yes
    (handleRatingCall .yes (handleRatingCall .yes demoC3a))))

def demoC3sys : Sys := replenishFinishCall (mkMs 11 10) (replenishQueueCall demoC3b)

/-- C3 counterexample: a rate/replenish sequence reaching a queue of
length 14, strictly above both the batch size (10) and the refill threshold
(5), refuting the claimed bound by the configured target size. -/
theorem c3_counterexample :
    ReachableRR demoC3sys ∧
    FETCH_SIZE < demoC3sys.s.movieQueue.length ∧
    MIN_QUEUE_SIZE < demoC3sys.s.movieQueue.length ∧
    demoC3sys.s.movieQueue.length = 14 := by
  refine ⟨?_, by decide, by decide, by decide⟩
  have h0 : ReachesP noSkip initSys initSys := .refl _
  have h1 := ReachesP.tail h0 (by decide) (Step.initStart rfl rfl)
  have h2 := ReachesP.tail h1 (by decide)
    (Step.initFinish (mkMs 1 10) (by decide) (by decide))
  have h3 := ReachesP.tail h2 (by decide)
    (Step.rateStep .yes (by decide) (by decide) (by decide))
  have h4 := ReachesP.tail h3 (by decide)
    (Step.rateStep .yes (by decide) (by decide) (by decide))
  have h5 := ReachesP.tail h4 (by decide)
    (Step.rateStep .yes (by decide) (by decide) (by decide))
  have h6 := ReachesP.tail h5 (by decide)
    (Step.rateStep .yes (by decide) (by decide) (by decide))
  have h7 := ReachesP.tail h6 (by decide)
    (Step.rateStep .yes (by decide) (by decide) (by decide))
  have h8 := ReachesP.tail h7 (by decide)
    (Step.replenishStart (by decide) (by decide) (by decide))
  exact ReachesP.tail h8 (by decide)
    (Step.replenishFinish (mkMs 11 10) (by decide) (by decide))

/-- C7 (amended): initialize postcondition.  From the mount state (empty
queue), when the initial fetch resolves with a non-empty list m :: rest, the
normalized m becomes current, the normalized rest becomes the queue (so for
a source returning [A,B,C,D] the queue is [B,C,D], not [B,C]) and the error
state is untouched; an empty result sets the user-visible error state and
leaves current and queue as they were (no partial state). -/
theorem c7_init_postcondition (sys : Sys) (ms : List Movie)
    (h0 : sys.s.movieQueue = []) :
    (∀ m rest, ms = m :: rest →
       (initFinishCall ms sys).s.currentMovie = some (normalizeMovie m) ∧
       (initFinishCall ms sys).s.movieQueue = rest.map normalizeMovie ∧
       (initFinishCall ms sys).s.error = sys.s.error) ∧
    (ms = [] →
       (initFinishCall ms sys).s.error = some "Failed to fetch movies" ∧
       (initFinishCall ms sys).s.currentMovie = sys.s.currentMovie ∧
       (initFinishCall ms sys).s.movieQueue = []) := by
  constructor
  · rintro m rest rfl
    by_cases hrest : rest = []
    · exact ⟨by simp [initFinishCall, hrest],
             by simp [initFinishCall, hrest, h0],
             by simp [initFinishCall, hrest]⟩
    · exact ⟨by simp [initFinishCall, hrest],
             by simp [initFinishCall, hrest],
             by simp [initFinishCall, hrest]⟩
  · rintro rfl
    exact ⟨by simp [initFinishCall], by simp [initFinishCall],
           by simp [initFinishCall, h0]⟩

theorem c7_witness :
    (initFinishCall [mkM 101, mkM 102, mkM 103, mkM 104] demoA).s.currentMovie
      = some (normalizeMovie (mkM 101)) ∧
    (initFinishCall [mkM 101, mkM 102, mkM 103, mkM 104] demoA).s.movieQueue
      = [mkM 102, mkM 103, mkM 104].map normalizeMovie ∧
    (initFinishCall [mkM 101, mkM 102, mkM 103, mkM 104] demoA).s.error
      = demoA.s.error :=
  (c7_init_postcondition demoA [mkM 101, mkM 102, mkM 103, mkM 104]
      (by decide)).1
    (mkM 101) [mkM 102, mkM 103, mkM 104] rfl

/-- C7 counterexample: in both the part_006 target-3 variant and the primary
variant, a source returning four movies [A,B,C,D] leaves a buffer of the
three remaining movies [B,C,D], not the [B,C] asserted by the claim. -/
theorem c7_counterexample :
    (initFetch006 [some (mkM 101), some (mkM 102), some (mkM 103),
        some (mkM 104)]).1 = some (mkM 101) ∧
    (initFetch006 [some (mkM 101), some (mkM 102), some (mkM 103),
        some (mkM 104)]).2.1 = [mkM 102, mkM 103, mkM 104] ∧
    (initFetch006 [some (mkM 101), some (mkM 102), some (mkM 103),
        some (mkM 104)]).2.1 ≠ [mkM 102, mkM 103] ∧
    (initFinishCall [mkM 101, mkM 102, mkM 103, mkM 104] demoA).s.movieQueue
      ≠ [normalizeMovie (mkM 102), normalizeMovie (mkM 103)] := by
  refine ⟨by decide, by decide, by decide, by decide⟩

/-- C8 (amended): advance on empty buffer.  With an empty queue,
`moveToNextMovie` issues a single one-movie fetch and shows the loading
state only when the isReplenishing ref is clear; when the ref is set (e.g. a
replenish is in flight) it does nothing at all — no fetch, no loading, no
state change.  When the issued fetch resolves, a movie becomes current and
loading clears; an empty response sets the user-visible error state. -/
theorem c8_advance_empty (sys : Sys) (h : sys.s.movieQueue = []) :
    (sys.s.isReplenishing = false →
       moveToNextMovieCall sys =
         { sys with
           s := { sys.s with isReplenishing := true, loadingMovie := true }
           advancePending := sys.advancePending ++ [⟨1, sys.s.seenMovieIds⟩] }) ∧
    (sys.s.isReplenishing = true → moveToNextMovieCall sys = sys) ∧
    (∀ sys2 : Sys, ∀ m : Movie,
       (advanceFinishCall [m] sys2).s.currentMovie = some (normalizeMovie m) ∧
       (advanceFinishCall [m] sys2).s.loadingMovie = false ∧
       (advanceFinishCall [m] sys2).s.error = sys2.s.error) ∧
    (∀ sys2 : Sys,
       (advanceFinishCall [] sys2).s.error = some "Failed to fetch movie" ∧
       (advanceFinishCall [] sys2).s.loadingMovie = false) := by
  refine ⟨?_, ?_, ?_, ?_⟩
  · intro hrep
    simp [moveToNextMovieCall, h, hrep]
  · intro hrep
    simp [moveToNextMovieCall, h, hrep]
  · intro sys2 m
    exact ⟨by simp [advanceFinishCall], by simp [advanceFinishCall],
           by simp [advanceFinishCall]⟩
  · intro sys2
    exact ⟨by simp [advanceFinishCall], by simp [advanceFinishCall]⟩

theorem c8_witness :
    (demoB1.s.isReplenishing = false →
       moveToNextMovieCall demoB1 =
         { demoB1 with
           s := { demoB1.s with isReplenishing := true, loadingMovie := true }
           advancePending := demoB1.advancePending
             ++ [⟨1, demoB1.s.seenMovieIds⟩] }) ∧
    (demoB1.s.isReplenishing = true → moveToNextMovieCall demoB1 = demoB1) ∧
    (∀ sys2 : Sys, ∀ m : Movie,
       (advanceFinishCall [m] sys2).s.currentMovie = some (normalizeMovie m) ∧
       (advanceFinishCall [m] sys2).s.loadingMovie = false ∧
       (advanceFinishCall [m] sys2).s.error = sys2.s.error) ∧
    (∀ sys2 : Sys,
       (advanceFinishCall [] sys2).s.error = some "Failed to fetch movie" ∧
       (advanceFinishCall [] sys2).s.loadingMovie = false) :=
  c8_advance_empty demoB1 (by decide)

/-- State with an empty queue and a replenish in flight, reached by: initial
fetch returns 6 movies, one rating (queue 4) triggers the replenish effect,
then four more ratings drain the queue while the replenish fetch is
outstanding. -/
def demoC8a : Sys :=
  handleRatingCall .yes (initFinishCall (mkMs 1 6) (initStartCall initSys))

def demoC8sys : Sys :=
  handleRatingCall .yes (handleRatingCall .yes (handleRatingCall .yes
    (handleRatingCall .yes (replenishQueueCall demoC8a))))

/-- C8 counterexample: a reachable state with an empty buffer in which
`moveToNextMovie` performs no fetch and displays no loading state — it
leaves the state entirely unchanged because the isReplenishing ref is held
by an in-flight replenish — refuting the claim that advance fetches in
every empty-buffer state. -/
theorem c8_counterexample :
    Reachable demoC8sys ∧
    demoC8sys.s.movieQueue = [] ∧
    moveToNextMovieCall demoC8sys = demoC8sys ∧
    (moveToNextMovieCall demoC8sys).advancePending = [] ∧
    (moveToNextMovieCall demoC8sys).s.loadingMovie = false := by
  refine ⟨?_, by decide, by decide, by decide, by decide⟩
  have h0 : ReachesP trivLabel initSys initSys := .refl _
  have h1 := ReachesP.tail h0 trivial (Step.initStart rfl rfl)
  have h2 := ReachesP.tail h1 trivial
    (Step.initFinish (mkMs 1 6) (by decide) (by decide))
  have h3 := ReachesP.tail h2 trivial
    (Step.rateStep .yes (by decide) (by decide) (by decide))
  have h4 := ReachesP.tail h3 trivial
    (Step.replenishStart (by decide) (by decide) (by decide))
  have h5 := ReachesP.tail h4 trivial
    (Step.rateStep .yes (by decide) (by decide) (by decide))
  have h6 := ReachesP.tail h5 trivial
    (Step.rateStep .yes (by decide) (by decide) (by decide))
  have h7 := ReachesP.tail h6 trivial
    (Step.rateStep .yes (by decide) (by decide) (by decide))
  exact ReachesP.tail h7 trivial
    (Step.rateStep .yes (by decide) (by decide) (by decide))

/-- C9 (amended): seen-id freshness.  The seen list is extended by plain
append, without any idempotence check; it stays duplicate-free along a step
exactly when every fetch response consists of distinct ids not already seen
(which is what the exclusion list asks of the source, but does not
enforce). -/
theorem c9_seen_fresh_preserved (sys sys' : Sys) (l : ELabel)
    (hs : Step sys l sys') (hnd : sys.s.seenMovieIds.Nodup)
    (hfresh : ∀ ms, respOf l = some ms →
       (ms.map Movie.id).Nodup ∧ ∀ i ∈ ms.map Movie.id, i ∉ sys.s.seenMovieIds) :
    sys'.s.seenMovieIds.Nodup := by
  cases hs with
  | initStart hm hp => simpa [initStartCall] using hnd
  | initFinish ms hp hlen =>
      obtain ⟨h1, h2⟩ := hfresh ms rfl
      have : (sys.s.seenMovieIds ++ ms.map Movie.id).Nodup :=
        List.Nodup.append hnd h1 (fun a ha hm => h2 a hm ha)
      cases ms with
      | nil => simpa [initFinishCall] using this
      | cons m rest => simpa [initFinishCall] using this
  | replenishStart hl hq hc =>
      rcases Bool.eq_false_or_eq_true sys.s.isReplenishing with hrep | hrep <;>
        simpa [replenishQueueCall, hrep] using hnd
  | replenishFinish ms hp hlen =>
      obtain ⟨h1, h2⟩ := hfresh ms rfl
      have : (sys.s.seenMovieIds ++ ms.map Movie.id).Nodup :=
        List.Nodup.append hnd h1 (fun a ha hm => h2 a hm ha)
      simpa [replenishFinishCall] using this
  | rateStep v hl he hc =>
      cases hcur : sys.s.currentMovie with
      | none => exact absurd hcur hc
      | some x =>
          cases hq : sys.s.movieQueue with
          | cons n rest =>
              simpa [handleRatingCall, moveToNextMovieCall, hcur, hq] using hnd
          | nil =>
              rcases Bool.eq_false_or_eq_true sys.s.isReplenishing with hrep | hrep <;>
                simpa [handleRatingCall, moveToNextMovieCall, hcur, hq, hrep] using hnd
  | skipStep =>
      cases hq : sys.s.movieQueue with
      | cons n rest => simpa [moveToNextMovieCall, hq] using hnd
      | nil =>
          rcases Bool.eq_false_or_eq_true sys.s.isReplenishing with hrep | hrep <;>
            simpa [moveToNextMovieCall, hq, hrep] using hnd
  | advanceFinish ms hp hlen =>
      obtain ⟨h1, h2⟩ := hfresh ms rfl
      have : (sys.s.seenMovieIds ++ ms.map Movie.id).Nodup :=
        List.Nodup.append hnd h1 (fun a ha hm => h2 a hm ha)
      simpa [advanceFinishCall] using this
  | writeFinish w ok hw => simpa [writeFinishCall] using hnd

theorem c9_witness :
    (initFinishCall [mkM 1] demoA).s.seenMovieIds.Nodup :=
  c9_seen_fresh_preserved demoA (initFinishCall [mkM 1] demoA)
    (.initFinish [mkM 1])
    (Step.initFinish [mkM 1] (by decide) (by decide))
    (by decide)
    (by
      intro ms hms
      simp only [respOf, Option.some_inj] at hms
      subst hms
      exact ⟨by decide, by decide⟩)

/-- C9 counterexample: a reachable state whose seen list holds id 1 twice —
the initial fetch returned movie 1, the following replenish returned movie 1
again (the exclusion list is best-effort only) and the component appended it
again, so insertion is not idempotent. -/
theorem c9_counterexample :
    Reachable demodup ∧
    demodup.s.seenMovieIds = [1, 1] ∧
    ¬ demodup.s.seenMovieIds.Nodup :=
  ⟨demodup_reach, by decide, by decide⟩

end Popcorn

namespace RatingPage

/-- A concrete movie payload for the retry scenarios. -/
def pageMovie : MovieData :=
  { id := 7
    original_title := "m"
    overview := ""
    poster_path := none
    genres := []
    release_date := "" }

/-- An upstream that always answers 200 with `status_code: 34` in the body
(the transient-not-found condition). -/
def up34 : Nat → ApiResponse := fun _ => .ok ⟨none, some 34, pageMovie⟩

lemma aux34_three (upstream : Nat → ApiResponse)
    (h : ∀ n, respTransient (upstream n) = true) (base a : Nat) (d : List Nat) :
    fetchFromAPIAux upstream base 3 0 a d = ⟨.ok none, a + 3, d ++ [1000, 2000]⟩ := by
  have hu0 := h (base + a)
  have hu1 := h (base + (a + 1))
  have hu2 := h (base + (a + 1 + 1))
  cases u0 : upstream (base + a) with
  | httpError s =>
      rw [u0] at hu0
      simp [respTransient] at hu0
  | ok b0 =>
      rw [u0] at hu0
      simp only [respTransient] at hu0
      cases u1 : upstream (base + (a + 1)) with
      | httpError s =>
          rw [u1] at hu1
          simp [respTransient] at hu1
      | ok b1 =>
          rw [u1] at hu1
          simp only [respTransient] at hu1
          cases u2 : upstream (base + (a + 1 + 1)) with
          | httpError s =>
              rw [u2] at hu2
              simp [respTransient] at hu2
          | ok b2 =>
              rw [u2] at hu2
              simp only [respTransient] at hu2
              simp [fetchFromAPIAux, u0, hu0, u1, hu1, u2, hu2, maxRetries]

/-- C4 (amended): retry behavior under a permanently transient upstream.
One `fetchMovieFromAPI` call makes exactly maxRetries = 3 attempts with
strictly increasing backoff delays (1000 ms, 2000 ms) and then returns null
without throwing; the foreground `fetchNextMovie` therefore runs the helper
twice (6 attempts in total, with a fixed 1000 ms pause in between, so the
overall delay sequence is not increasing) and surfaces no error to the
user — it silently substitutes the empty movie. -/
theorem c4_retry_behavior (upstream : Nat → ApiResponse)
    (h : ∀ n, respTransient (upstream n) = true) :
    fetchMovieFromAPI upstream = ⟨.ok none, 3, [1000, 2000]⟩ ∧
    List.Pairwise (· < ·) (fetchMovieFromAPI upstream).delays ∧
    fetchNextMovie upstream none none
      = ⟨some emptyMovie, none, false, false, 6, [1000, 2000, 1000, 1000, 2000]⟩ := by
  have e1 : fetchMovieFromAPIAt upstream 0 = ⟨.ok none, 3, [1000, 2000]⟩ := by
    have := aux34_three upstream h 0 0 []
    simpa [fetchMovieFromAPIAt, maxRetries] using this
  have e2 : fetchMovieFromAPIAt upstream 3 = ⟨.ok none, 3, [1000, 2000]⟩ := by
    have := aux34_three upstream h 3 0 []
    simpa [fetchMovieFromAPIAt, maxRetries] using this
  refine ⟨by simpa [fetchMovieFromAPI] using e1, ?_, ?_⟩
  · rw [fetchMovieFromAPI, e1]
    decide
  · simp [fetchNextMovie, e1, e2]

theorem c4_witness :
    fetchMovieFromAPI up34 = ⟨.ok none, 3, [1000, 2000]⟩ ∧
    List.Pairwise (· < ·) (fetchMovieFromAPI up34).delays ∧
    fetchNextMovie up34 none none
      = ⟨some emptyMovie, none, false, false, 6, [1000, 2000, 1000, 1000, 2000]⟩ :=
  c4_retry_behavior up34 (fun _ => rfl)

/-- C4 counterexample: with an upstream that always returns the
transient-not-found body, the foreground fetch performs 6 attempts, not 3,
surfaces no user-visible error at all (error stays none and the snackbar
stays closed), and the inter-attempt delays are not strictly increasing:
the claim's "attempts exactly 3 before surfacing an error" is false on the
code. -/
theorem c4_counterexample :
    (fetchNextMovie up34 none none).attempts = 6 ∧
    (fetchNextMovie up34 none none).attempts ≠ 3 ∧
    (fetchNextMovie up34 none none).error = none ∧
    (fetchNextMovie up34 none none).snackbarOpen = false ∧
    ¬ List.Pairwise (· < ·) (fetchNextMovie up34 none none).delays := by
  refine ⟨by decide, by decide, by decide, by decide, by decide⟩

end RatingPage
